import Mathlib

/-!
Shallow embedding of the load-testing engine of this repository
(src/load_test/load.go, with the worker-paced variant in the unnamed part),
together with theorems settling the frozen claims about it.

Durations (Go time.Duration, int64 nanoseconds) are modelled as Nat: every
latency in the program is produced by time.Since and is nonnegative, and none
of the claims concerns int64 overflow.  The float64 arithmetic of Go in the
percentile rank computation is modelled exactly over ℚ; the float-to-int64
conversion time.Duration(x) truncates toward zero, which for the nonnegative
values arising here is the floor.
-/

/-- Go math.MaxInt64, the sentinel the aggregator uses to initialise minimum
latencies (load.go line 234 and 261). -/
def maxInt64 : Nat := 2 ^ 63 - 1

/-! Section: Percentile calculator (load.go lines 338-364) -/

/-- calculatePercentile from load.go lines 338-364.  Empty data returns 0.
Otherwise the data is sorted ascending (sort.Slice with a less-than
comparator), the rank is index = percentile/100 * (len(data)-1) in float64
(exact here over ℚ), an integral rank returns the element at that rank, and
otherwise the code computes indexOffset = time.Duration(index - lowerIndex):
a float64-to-int64 conversion that truncates the fractional part, and then
lowerValue + (upperValue-lowerValue)*indexOffset. -/
def calculatePercentile (data : List Nat) (percentile : Nat) : Nat :=
  if data.length = 0 then 0
  else
    let sorted := List.insertionSort (fun a b => a ≤ b) data
    let index : ℚ := (percentile : ℚ) / 100 * ((data.length - 1 : Nat) : ℚ)
    if index = ((⌊index⌋ : ℤ) : ℚ) then
      sorted.getD (⌊index⌋).toNat 0
    else
      let lowerIndex := (⌊index⌋).toNat
      let upperIndex := (⌈index⌉).toNat
      let lowerValue := sorted.getD lowerIndex 0
      let upperValue := sorted.getD upperIndex 0
      let indexOffset : Nat := (⌊index - (lowerIndex : ℚ)⌋).toNat
      lowerValue + (upperValue - lowerValue) * indexOffset

/-! Section: Request executor (load.go lines 40-99) -/

/-- The three ways a single request attempt can behave inside Worker.Run:
the HTTP GET returns a response, returns an error, or panics. -/
inductive AttemptBehavior where
  | ok (status : Nat) (latency : Nat)
  | failed (latency : Nat)
  | panicked
deriving DecidableEq

/-- Result struct from load.go lines 49-54.  The err field is modelled by
isErr : whether err was non-nil. -/
structure Result where
  workerID : Nat
  status : Nat
  latency : Nat
  isErr : Bool
deriving DecidableEq

/-- Worker.Run from load.go lines 68-99, as a function from the
behavior to the list of Results sent on the results channel and the number
of times incrementErrorCounter is called.  A successful GET sends one Result
carrying the status code; a failed GET increments the counter once and still
sends one Result with the err marker and status 0; a panic is recovered by
the deferred handler, which increments the counter once and returns without
sending anything. -/
def workerRun (id : Nat) : AttemptBehavior → List Result × Nat
  | .ok status latency => ([⟨id, status, latency, false⟩], 0)
  | .failed latency => ([⟨id, 0, latency, true⟩], 1)
  | .panicked => ([], 1)

/-! Section: Query-parameter validation (load.go lines 177-188) -/

/-- Parameter validation in LoadTestHandler, load.go lines 177-188.  The
outcome of strconv.Atoi on each query parameter is modelled as an
Option Int (none = non-numeric input).  The handler returns a 400 error
when Atoi fails and otherwise proceeds with the parsed values, whatever
their sign. -/
def parseLoadTestParams (rps? duration? : Option Int) : Except String (Int × Int) :=
  match rps? with
  | none => Except.error "invalid rps"
  | some rps =>
    match duration? with
    | none => Except.error "invalid duration"
    | some d => Except.ok (rps, d)

/-! Section: Metrics aggregation (load.go lines 141-168 and 230-314) -/

/-- StatusCodeMetrics struct from load.go lines 142-147: the per-status-code
running sub-aggregate. -/
@[ext]
structure StatusCodeMetrics where
  count : Nat
  minLatency : Nat
  maxLatency : Nat
  sumLatency : Nat
deriving DecidableEq

/-- ResponseStatusCodeMetrics from load.go lines 148-153.  The source holds
rendered duration strings; the embedding keeps the underlying duration
values being rendered. -/
@[ext]
structure RespStatusCodeMetrics where
  count : Nat
  minLatency : Nat
  maxLatency : Nat
  avgLatency : Nat
deriving DecidableEq

/-- The running state of the aggregator during the result-drain loop of
LoadTestHandler (load.go lines 230-275): running sum of successful
latencies, the latency sample, global min/max, the per-status-code map
(modelled as a function to Option, none = key absent), and the
incrementErrorCounter calls the loop itself makes on failed results. -/
@[ext]
structure AggState where
  sumLatency : Nat
  latencies : List Nat
  minLatency : Nat
  maxLatency : Nat
  statusMetrics : Nat → Option StatusCodeMetrics
  loopErrIncs : Nat

/-- The aggregator state just before the drain loop (load.go lines 208,
212, 231-234): empty map, empty sample, min initialised to math.MaxInt64,
max and sum to zero. -/
def initAggState : AggState :=
  { sumLatency := 0, latencies := [], minLatency := maxInt64, maxLatency := 0
    statusMetrics := fun _ => none, loopErrIncs := 0 }

/-- The lazy-create-then-update of the per-status map, load.go lines
256-274: a missing key is first inserted with count 0, min MaxInt64, max 0,
sum 0, and then count is incremented, the latency added to the sum, and
min/max updated by comparison. -/
def updateStatusMetrics (m : Nat → Option StatusCodeMetrics) (status latency : Nat) :
    Nat → Option StatusCodeMetrics :=
  let cur := (m status).getD ⟨0, maxInt64, 0, 0⟩
  let upd : StatusCodeMetrics :=
    { count := cur.count + 1
      minLatency := if latency < cur.minLatency then latency else cur.minLatency
      maxLatency := if latency > cur.maxLatency then latency else cur.maxLatency
      sumLatency := cur.sumLatency + latency }
  fun c => if c = status then some upd else m c

/-- One iteration of the drain loop, load.go lines 238-275: a Result whose
err is set increments the error counter and skips all accounting; a
successful Result is added to the sum and the latency sample, updates the
global min/max, and updates its status bucket. -/
def aggStep (s : AggState) (r : Result) : AggState :=
  if r.isErr then { s with loopErrIncs := s.loopErrIncs + 1 }
  else
    { sumLatency := s.sumLatency + r.latency
      latencies := s.latencies ++ [r.latency]
      minLatency := if r.latency < s.minLatency then r.latency else s.minLatency
      maxLatency := if r.latency > s.maxLatency then r.latency else s.maxLatency
      statusMetrics := updateStatusMetrics s.statusMetrics r.status r.latency
      loopErrIncs := s.loopErrIncs }

/-- Draining the whole results channel, load.go lines 238-275. -/
def aggregate (rs : List Result) : AggState :=
  rs.foldl aggStep initAggState

/-- The LoadTestMetrics report struct from load.go lines 156-168, with
duration-string fields kept as the duration values being rendered and the
float64 error rate modelled as Option ℚ (none = the non-finite value NaN
or Inf that the unguarded Go division produces when totalRequests is 0). -/
@[ext]
structure LoadTestMetrics where
  totalRequests : Nat
  averageLatency : Nat
  requestsPerSecond : Nat
  minLatency : Nat
  maxLatency : Nat
  errorRate : Option ℚ
  resStatusMetrics : Nat → Option RespStatusCodeMetrics
  p50 : Nat
  p90 : Nat
  p95 : Nat
  p99 : Nat

/-- The error-rate computation of load.go line 290:
float64(totalErrors) / float64(totalRequests) * 100.  Go float division by
zero yields NaN (0/0) or Inf, modelled as none; otherwise the quotient is
exact here. -/
def errorRatePct (errs total : Nat) : Option ℚ :=
  if total = 0 then none else some ((errs : ℚ) / (total : ℚ) * 100)

/-- Building the final report from the drained aggregator state, load.go
lines 277-314: the average is the sum of successful latencies divided by
totalRequests, guarded to 0 when totalRequests is 0; percentiles come from
the latency sample; each status bucket is rendered with its average
sum/count. -/
def buildReport (rps duration totalErrors : Nat) (st : AggState) : LoadTestMetrics :=
  let totalRequests := rps * duration
  { totalRequests := totalRequests
    averageLatency := if totalRequests > 0 then st.sumLatency / totalRequests else 0
    requestsPerSecond := rps
    minLatency := st.minLatency
    maxLatency := st.maxLatency
    errorRate := errorRatePct totalErrors totalRequests
    resStatusMetrics := fun c => (st.statusMetrics c).map fun m =>
      { count := m.count, minLatency := m.minLatency, maxLatency := m.maxLatency
        avgLatency := m.sumLatency / m.count }
    p50 := calculatePercentile st.latencies 50
    p90 := calculatePercentile st.latencies 90
    p95 := calculatePercentile st.latencies 95
    p99 := calculatePercentile st.latencies 99 }

/-- The worker ids launched by the dispatcher loop of load.go lines
214-225: for each of the duration one-second epochs, workers 0..rps-1 are
created and started. -/
def dispatchedWorkers (rps duration : Nat) : List Nat :=
  (List.range duration).flatMap fun _ => List.range rps

/-- The results sent on the channel by a run whose attempts (one per
launched worker, in channel-arrival order) behave as given. -/
def runResults (attempts : List (Nat × AttemptBehavior)) : List Result :=
  attempts.flatMap fun a => (workerRun a.1 a.2).1

/-- The value of the shared error counter after all workers have finished
(the snapshot getErrorCounter() taken at load.go line 235, after wg.Wait):
the counter was reset to 0 at the start of the run (lines 172-175) and each
increments of every worker are summed. -/
def runTotalErrors (attempts : List (Nat × AttemptBehavior)) : Nat :=
  (attempts.map fun a => (workerRun a.1 a.2).2).sum

/-- A whole run of LoadTestHandler after parameter validation, load.go
lines 190-314, as a function of the per-attempt behaviors: the worker
results are drained and aggregated and the final report built with the
error-counter snapshot. -/
def loadTestRun (rps duration : Nat) (attempts : List (Nat × AttemptBehavior)) :
    LoadTestMetrics :=
  buildReport rps duration (runTotalErrors attempts) (aggregate (runResults attempts))

/-- Total number of requests actually attempted by the worker-paced variant
(unnamed part, lines 129-168 and 54-95): workers many workers are launched,
each given requestsPerWorker = (rps*duration)/workers requests; each worker
issues requestRatePerSecond = requestsPerWorker/duration requests in each of
duration seconds.  All divisions are Go integer divisions. -/
def workerPacedAttemptCount (rps duration workers : Nat) : Nat :=
  let totalRequests := rps * duration
  let requestsPerWorker := totalRequests / workers
  let requestRatePerSecond := requestsPerWorker / duration
  workers * (duration * requestRatePerSecond)

/-! Section: Projections of the outcome stream used to state the claims -/

/-- Latencies of the successful Results of an outcome stream, in arrival
order: exactly the values the drain loop adds to the sum and the sample. -/
def successLatencies (rs : List Result) : List Nat :=
  (rs.filter fun r => !r.isErr).map Result.latency

/-- Status codes of the successful Results of an outcome stream, with
multiplicity. -/
def successStatuses (rs : List Result) : List Nat :=
  (rs.filter fun r => !r.isErr).map Result.status

/-- The count field of the status bucket for code c, 0 when the bucket was
never created. -/
def statusCount (st : AggState) (c : Nat) : Nat :=
  match st.statusMetrics c with
  | none => 0
  | some m => m.count

/-- The count field of the rendered report status bucket for code c, 0
when absent. -/
def reportStatusCount (rep : LoadTestMetrics) (c : Nat) : Nat :=
  match rep.resStatusMetrics c with
  | none => 0
  | some m => m.count

/-! Section: Lemmas about the drain-loop fold -/

theorem successLatencies_cons (r : Result) (rs : List Result) :
    successLatencies (r :: rs)
      = if r.isErr then successLatencies rs else r.latency :: successLatencies rs := by
  by_cases h : r.isErr <;> simp [successLatencies, List.filter_cons, h]

theorem successStatuses_cons (r : Result) (rs : List Result) :
    successStatuses (r :: rs)
      = if r.isErr then successStatuses rs else r.status :: successStatuses rs := by
  by_cases h : r.isErr <;> simp [successStatuses, List.filter_cons, h]

theorem foldl_aggStep_sumLatency (st : AggState) (rs : List Result) :
    (rs.foldl aggStep st).sumLatency = st.sumLatency + (successLatencies rs).sum := by
  induction rs generalizing st with
  | nil => simp [successLatencies]
  | cons r rs ih =>
    rw [List.foldl_cons, ih, successLatencies_cons]
    by_cases h : r.isErr
    · simp [aggStep, h]
    · simp [aggStep, h]
      omega

theorem aggregate_sumLatency (rs : List Result) :
    (aggregate rs).sumLatency = (successLatencies rs).sum := by
  have h := foldl_aggStep_sumLatency initAggState rs
  simpa [aggregate, initAggState] using h

theorem foldl_aggStep_minmax_no_success (st : AggState) (rs : List Result)
    (h : ∀ r ∈ rs, r.isErr = true) :
    (rs.foldl aggStep st).minLatency = st.minLatency
      ∧ (rs.foldl aggStep st).maxLatency = st.maxLatency := by
  induction rs generalizing st with
  | nil => exact ⟨rfl, rfl⟩
  | cons r rs ih =>
    have hr : r.isErr = true := h r (List.mem_cons_self r rs)
    rw [List.foldl_cons]
    have := ih (aggStep st r) (fun x hx => h x (List.mem_cons_of_mem r hx))
    simpa [aggStep, hr] using this

/-- C4: the reported average latency is the sum of the successful-request
latencies divided (integer division on durations, as in the source) by the
total attempted request count rps times duration, not by the number of
successes, and it is guarded to 0 when the total attempted count is 0. -/
theorem loadTestRun_averageLatency (rps duration : Nat)
    (attempts : List (Nat × AttemptBehavior)) :
    (loadTestRun rps duration attempts).averageLatency
      = if 0 < rps * duration
        then (successLatencies (runResults attempts)).sum / (rps * duration)
        else 0 := by
  show (if rps * duration > 0
          then (aggregate (runResults attempts)).sumLatency / (rps * duration) else 0) = _
  rw [aggregate_sumLatency]

/-- C10: when a run has zero successful requests (every attempt failed or
no attempt was made), the min-latency field of the report still holds the
sentinel it was initialised to, math.MaxInt64 = 2^63 - 1 nanoseconds, and
the max-latency field holds the zero duration; the minimum is not reported
as a zero-equivalent value. -/
theorem report_minmax_no_success (rps duration totalErrors : Nat) (rs : List Result)
    (h : ∀ r ∈ rs, r.isErr = true) :
    (buildReport rps duration totalErrors (aggregate rs)).minLatency = 2 ^ 63 - 1
    ∧ (buildReport rps duration totalErrors (aggregate rs)).maxLatency = 0
    ∧ (2 : Nat) ^ 63 - 1 ≠ 0 := by
  have hm := foldl_aggStep_minmax_no_success initAggState rs h
  refine ⟨?_, ?_, by decide⟩
  · show (rs.foldl aggStep initAggState).minLatency = 2 ^ 63 - 1
    rw [hm.1]
    rfl
  · show (rs.foldl aggStep initAggState).maxLatency = 0
    rw [hm.2]
    rfl

/-- C10 witness: a run of one attempt whose request failed. -/
theorem report_minmax_no_success_witness :
    (∀ r ∈ [(⟨0, 0, 5, true⟩ : Result)], r.isErr = true)
    ∧ (buildReport 1 1 1 (aggregate [⟨0, 0, 5, true⟩])).minLatency = 2 ^ 63 - 1
    ∧ (buildReport 1 1 1 (aggregate [⟨0, 0, 5, true⟩])).maxLatency = 0 := by
  have h : ∀ r ∈ [(⟨0, 0, 5, true⟩ : Result)], r.isErr = true := by decide
  have := report_minmax_no_success 1 1 1 [⟨0, 0, 5, true⟩] h
  exact ⟨h, this.1, this.2.1⟩

theorem statusCount_aggStep (st : AggState) (r : Result) (c : Nat) :
    statusCount (aggStep st r) c
      = statusCount st c + (if r.isErr = false ∧ c = r.status then 1 else 0) := by
  by_cases h : r.isErr
  · simp [aggStep, h, statusCount]
  · by_cases hc : c = r.status
    · subst hc
      cases hm : st.statusMetrics r.status <;>
        simp [aggStep, h, statusCount, updateStatusMetrics, hm]
    · simp [aggStep, h, statusCount, updateStatusMetrics, hc]

theorem statusCount_foldl (st : AggState) (rs : List Result) (c : Nat) :
    statusCount (rs.foldl aggStep st) c
      = statusCount st c + (successStatuses rs).count c := by
  induction rs generalizing st with
  | nil => simp [successStatuses]
  | cons r rs ih =>
    rw [List.foldl_cons, ih, statusCount_aggStep, successStatuses_cons]
    by_cases h : r.isErr
    · simp [h]
    · by_cases hc : c = r.status
      · simp only [h, hc, List.count_cons, if_neg, Bool.false_eq_true,
          not_false_eq_true, ite_false, ite_true, and_true, and_self]
        simp [List.count_cons]
        omega
      · simp [h, hc, List.count_cons]

theorem statusMetrics_foldl_absent (st : AggState) (rs : List Result) (c : Nat)
    (h : c ∉ successStatuses rs) :
    (rs.foldl aggStep st).statusMetrics c = st.statusMetrics c := by
  induction rs generalizing st with
  | nil => rfl
  | cons r rs ih =>
    rw [successStatuses_cons] at h
    rw [List.foldl_cons]
    by_cases hr : r.isErr
    · rw [if_pos hr] at h
      rw [ih (aggStep st r) h]
      simp [aggStep, hr]
    · rw [if_neg hr] at h
      have hc : c ≠ r.status := fun hcc => h (hcc ▸ List.mem_cons_self _ _)
      have hm : c ∉ successStatuses rs := fun hmm => h (List.mem_cons_of_mem _ hmm)
      rw [ih (aggStep st r) hm]
      simp [aggStep, hr, updateStatusMetrics, hc]

theorem statusCount_aggregate (rs : List Result) (c : Nat) :
    statusCount (aggregate rs) c = (successStatuses rs).count c := by
  have h := statusCount_foldl initAggState rs c
  simpa [aggregate, statusCount, initAggState] using h

/-- The rendered bucket in the report keeps the same count as the running
bucket it is built from (load.go lines 292-300). -/
theorem reportStatusCount_eq (rps duration totalErrors : Nat) (st : AggState) (c : Nat) :
    reportStatusCount (buildReport rps duration totalErrors st) c = statusCount st c := by
  simp only [reportStatusCount, buildReport, statusCount]
  cases st.statusMetrics c <;> simp

/-- Counting over the attempts: each attempt contributes one Result that is
successful exactly when the GET succeeded, and one counter increment
exactly when it did not (failure or panic). -/
theorem runResults_cons (a : Nat × AttemptBehavior) (l : List (Nat × AttemptBehavior)) :
    runResults (a :: l) = (workerRun a.1 a.2).1 ++ runResults l := rfl

theorem runTotalErrors_cons (a : Nat × AttemptBehavior) (l : List (Nat × AttemptBehavior)) :
    runTotalErrors (a :: l) = (workerRun a.1 a.2).2 + runTotalErrors l := by
  simp [runTotalErrors]

theorem runResults_success_count (attempts : List (Nat × AttemptBehavior)) :
    (runResults attempts).countP (fun r => !r.isErr) + runTotalErrors attempts
      = attempts.length := by
  induction attempts with
  | nil => rfl
  | cons a l ih =>
    rw [runResults_cons, List.countP_append, runTotalErrors_cons, List.length_cons]
    rcases a with ⟨id, b⟩
    cases b with
    | ok status latency =>
      have h1 : (workerRun id (AttemptBehavior.ok status latency)).1.countP
          (fun r => !r.isErr) = 1 := by simp [workerRun]
      have h2 : (workerRun id (AttemptBehavior.ok status latency)).2 = 0 := rfl
      rw [h1, h2]
      omega
    | failed latency =>
      have h1 : (workerRun id (AttemptBehavior.failed latency)).1.countP
          (fun r => !r.isErr) = 0 := by simp [workerRun]
      have h2 : (workerRun id (AttemptBehavior.failed latency)).2 = 1 := rfl
      rw [h1, h2]
      omega
    | panicked =>
      have h1 : (workerRun id AttemptBehavior.panicked).1.countP
          (fun r => !r.isErr) = 0 := by simp [workerRun]
      have h2 : (workerRun id AttemptBehavior.panicked).2 = 1 := rfl
      rw [h1, h2]
      omega

theorem successStatuses_length (rs : List Result) :
    (successStatuses rs).length = rs.countP (fun r => !r.isErr) := by
  simp [successStatuses, List.countP_eq_length_filter]

/-- C9: in the final report, the counts of the per-status-code
sub-aggregates sum to the number of successful attempts, which is the
total attempted count minus the failed-attempt count; and a status code
with no successful Outcome has no bucket at all (buckets are created
lazily, and failed Outcomes are counted in none). -/
theorem statusBuckets_partition (rps duration : Nat)
    (attempts : List (Nat × AttemptBehavior)) (c : Nat)
    (h1 : attempts.length = rps * duration)
    (h2 : c ∉ successStatuses (runResults attempts)) :
    ((successStatuses (runResults attempts)).dedup.map
        fun s => reportStatusCount (loadTestRun rps duration attempts) s).sum
      = rps * duration - runTotalErrors attempts
    ∧ (loadTestRun rps duration attempts).resStatusMetrics c = none := by
  constructor
  · have hmap : ((successStatuses (runResults attempts)).dedup.map
        fun s => reportStatusCount (loadTestRun rps duration attempts) s)
        = ((successStatuses (runResults attempts)).dedup.map
            fun s => (successStatuses (runResults attempts)).count s) := by
      refine List.map_congr_left fun s _ => ?_
      rw [loadTestRun, reportStatusCount_eq, statusCount_aggregate]
    rw [hmap, List.sum_map_count_dedup_eq_length, successStatuses_length]
    have := runResults_success_count attempts
    omega
  · have habs := statusMetrics_foldl_absent initAggState (runResults attempts) c h2
    show ((aggregate (runResults attempts)).statusMetrics c).map _ = none
    rw [aggregate, habs]
    rfl

/-- C9 witness: a 3-request run with two successes (statuses 200 and 404)
and one failure; the bucket counts sum to 2 = 3 - 1, and status 500 has no
bucket. -/
theorem statusBuckets_partition_witness :
    ([((0 : Nat), AttemptBehavior.ok 200 5), (1, AttemptBehavior.failed 7),
        (2, AttemptBehavior.ok 404 9)].length = 3 * 1)
    ∧ ((500 : Nat) ∉ successStatuses (runResults
        [(0, AttemptBehavior.ok 200 5), (1, AttemptBehavior.failed 7),
          (2, AttemptBehavior.ok 404 9)]))
    ∧ ((successStatuses (runResults
          [(0, AttemptBehavior.ok 200 5), (1, AttemptBehavior.failed 7),
            (2, AttemptBehavior.ok 404 9)])).dedup.map
        fun s => reportStatusCount (loadTestRun 3 1
          [(0, AttemptBehavior.ok 200 5), (1, AttemptBehavior.failed 7),
            (2, AttemptBehavior.ok 404 9)]) s).sum
      = 3 * 1 - runTotalErrors
          [(0, AttemptBehavior.ok 200 5), (1, AttemptBehavior.failed 7),
            (2, AttemptBehavior.ok 404 9)]
    ∧ (loadTestRun 3 1
        [(0, AttemptBehavior.ok 200 5), (1, AttemptBehavior.failed 7),
          (2, AttemptBehavior.ok 404 9)]).resStatusMetrics 500 = none := by
  have h1 : [((0 : Nat), AttemptBehavior.ok 200 5), (1, AttemptBehavior.failed 7),
      (2, AttemptBehavior.ok 404 9)].length = 3 * 1 := by decide
  have h2 : (500 : Nat) ∉ successStatuses (runResults
      [(0, AttemptBehavior.ok 200 5), (1, AttemptBehavior.failed 7),
        (2, AttemptBehavior.ok 404 9)]) := by decide
  have h := statusBuckets_partition 3 1
    [(0, AttemptBehavior.ok 200 5), (1, AttemptBehavior.failed 7),
      (2, AttemptBehavior.ok 404 9)] 500 h1 h2
  exact ⟨h1, h2, h.1, h.2⟩

theorem runTotalErrors_le_length (attempts : List (Nat × AttemptBehavior)) :
    runTotalErrors attempts ≤ attempts.length := by
  have h := runResults_success_count attempts
  omega

/-- C5 (counterexample): a run with rate 0 (which validation does not
reject) attempts no requests, and the unguarded division of load.go line
290 computes 0.0/0.0: the reported error rate is NaN, not a value in
[0, 100]. -/
theorem errorRate_zero_attempts_nan :
    ¬ ∃ q, (loadTestRun 0 1 []).errorRate = some q ∧ 0 ≤ q ∧ q ≤ 100 := by
  intro ⟨q, hq, _, _⟩
  have hnone : (loadTestRun 0 1 []).errorRate = none := rfl
  rw [hnone] at hq
  exact Option.noConfusion hq

/-- C5 (amended): whenever the total attempted count rps times duration is
positive, the reported error rate is exactly (failed attempts / total
attempted) times 100 — each failed attempt having incremented the shared
counter exactly once — and lies in [0, 100]; when the total attempted
count is zero the unguarded float division instead produces NaN. -/
theorem errorRate_in_range (rps duration : Nat)
    (attempts : List (Nat × AttemptBehavior))
    (h1 : attempts.length = rps * duration) (h2 : 0 < rps * duration) :
    ∃ q, (loadTestRun rps duration attempts).errorRate = some q
      ∧ q = (runTotalErrors attempts : ℚ) / ((rps * duration : Nat) : ℚ) * 100
      ∧ 0 ≤ q ∧ q ≤ 100 := by
  have hne : rps * duration ≠ 0 := Nat.pos_iff_ne_zero.mp h2
  have hrate : (loadTestRun rps duration attempts).errorRate
      = some ((runTotalErrors attempts : ℚ) / ((rps * duration : Nat) : ℚ) * 100) := by
    show errorRatePct (runTotalErrors attempts) (rps * duration) = _
    rw [errorRatePct, if_neg hne]
  refine ⟨_, hrate, rfl, ?_, ?_⟩
  · positivity
  · have hle : runTotalErrors attempts ≤ rps * duration :=
      h1 ▸ runTotalErrors_le_length attempts
    have hcast : ((runTotalErrors attempts : ℚ)) ≤ (((rps * duration : Nat)) : ℚ) := by
      exact_mod_cast hle
    have hpos : (0 : ℚ) < (((rps * duration : Nat)) : ℚ) := by exact_mod_cast h2
    calc (runTotalErrors attempts : ℚ) / (((rps * duration : Nat)) : ℚ) * 100
        ≤ 1 * 100 := by
          apply mul_le_mul_of_nonneg_right _ (by norm_num)
          exact (div_le_one hpos).mpr hcast
      _ = 100 := by norm_num

/-- C5 witness: a 2-request run with one failure and one success has error
rate 50, inside [0, 100]. -/
theorem errorRate_in_range_witness :
    ([((0 : Nat), AttemptBehavior.failed 5), (1, AttemptBehavior.ok 200 7)].length = 2 * 1)
    ∧ 0 < 2 * 1
    ∧ ∃ q, (loadTestRun 2 1
          [(0, AttemptBehavior.failed 5), (1, AttemptBehavior.ok 200 7)]).errorRate = some q
        ∧ q = (runTotalErrors
              [((0 : Nat), AttemptBehavior.failed 5), (1, AttemptBehavior.ok 200 7)] : ℚ)
            / ((2 * 1 : Nat) : ℚ) * 100
        ∧ 0 ≤ q ∧ q ≤ 100 := by
  refine ⟨by decide, by decide, ?_⟩
  exact errorRate_in_range 2 1
    [(0, AttemptBehavior.failed 5), (1, AttemptBehavior.ok 200 7)] (by decide) (by decide)

/-- C6: the epoch-batched dispatcher of load.go launches exactly
rps times duration workers (rps per one-second epoch), the final report
total_requests field equals rps times duration, and the worker-paced
variant also attempts exactly rps times duration requests whenever the
rate divides evenly across the workers (the only case the claim exempts
from rounding loss). -/
theorem total_requests_spec (rps duration workers : Nat)
    (attempts : List (Nat × AttemptBehavior))
    (hd : 0 < duration) (hw : 0 < workers) (hdvd : workers ∣ rps) :
    (dispatchedWorkers rps duration).length = rps * duration
    ∧ (loadTestRun rps duration attempts).totalRequests = rps * duration
    ∧ workerPacedAttemptCount rps duration workers = rps * duration := by
  refine ⟨?_, rfl, ?_⟩
  · rw [dispatchedWorkers, List.length_flatMap]
    simp [Function.comp_def, mul_comm]
  · obtain ⟨k, hk⟩ := hdvd
    subst hk
    show workers * (duration * ((workers * k * duration / workers) / duration))
        = workers * k * duration
    rw [mul_assoc, Nat.mul_div_cancel_left _ hw, Nat.mul_div_cancel _ hd]
    ring

/-- C6 witness: rate 4, duration 3, 2 workers (2 divides 4): the epoch
dispatcher launches 12 workers, the report says 12, and the worker-paced
variant attempts 12. -/
theorem total_requests_spec_witness :
    0 < 3 ∧ 0 < 2 ∧ 2 ∣ 4
    ∧ ((dispatchedWorkers 4 3).length = 4 * 3
        ∧ (loadTestRun 4 3 [((0 : Nat), AttemptBehavior.ok 200 5)]).totalRequests = 4 * 3
        ∧ workerPacedAttemptCount 4 3 2 = 4 * 3) := by
  refine ⟨by decide, by decide, by decide, ?_⟩
  exact total_requests_spec 4 3 2 [(0, AttemptBehavior.ok 200 5)]
    (by decide) (by decide) (by decide)

/-! Section: Order-invariance of the aggregation (claim C7) -/

/-- Equivalence of aggregator states that forgets only the arrival order
stored in the latency sample: every other field agrees, and the samples
are permutations of each other. -/
def AggEquiv (s t : AggState) : Prop :=
  s.sumLatency = t.sumLatency ∧ s.latencies.Perm t.latencies
    ∧ s.minLatency = t.minLatency ∧ s.maxLatency = t.maxLatency
    ∧ s.statusMetrics = t.statusMetrics ∧ s.loopErrIncs = t.loopErrIncs

theorem AggEquiv.rfl (s : AggState) : AggEquiv s s :=
  ⟨Eq.refl _, List.Perm.refl _, Eq.refl _, Eq.refl _, Eq.refl _, Eq.refl _⟩

theorem AggEquiv.trans {s t u : AggState} (h1 : AggEquiv s t) (h2 : AggEquiv t u) :
    AggEquiv s u :=
  ⟨h1.1.trans h2.1, h1.2.1.trans h2.2.1, h1.2.2.1.trans h2.2.2.1,
    h1.2.2.2.1.trans h2.2.2.2.1, h1.2.2.2.2.1.trans h2.2.2.2.2.1,
    h1.2.2.2.2.2.trans h2.2.2.2.2.2⟩

theorem aggStep_err (s : AggState) (r : Result) (hr : r.isErr = true) :
    aggStep s r = { s with loopErrIncs := s.loopErrIncs + 1 } := by
  simp [aggStep, hr]

theorem aggStep_ok (s : AggState) (r : Result) (hr : r.isErr = false) :
    aggStep s r =
      { sumLatency := s.sumLatency + r.latency
        latencies := s.latencies ++ [r.latency]
        minLatency := if r.latency < s.minLatency then r.latency else s.minLatency
        maxLatency := if r.latency > s.maxLatency then r.latency else s.maxLatency
        statusMetrics := updateStatusMetrics s.statusMetrics r.status r.latency
        loopErrIncs := s.loopErrIncs } := by
  simp [aggStep, hr]

theorem aggStep_congr {s t : AggState} (r : Result) (h : AggEquiv s t) :
    AggEquiv (aggStep s r) (aggStep t r) := by
  obtain ⟨h1, h2, h3, h4, h5, h6⟩ := h
  cases hr : r.isErr with
  | true =>
    rw [aggStep_err s r hr, aggStep_err t r hr]
    exact ⟨h1, h2, h3, h4, h5, by simp [h6]⟩
  | false =>
    rw [aggStep_ok s r hr, aggStep_ok t r hr]
    exact ⟨by rw [h1], List.Perm.append h2 (List.Perm.refl _), by rw [h3], by rw [h4],
      by rw [h5], h6⟩

theorem foldl_aggStep_congr {s t : AggState} (l : List Result) (h : AggEquiv s t) :
    AggEquiv (l.foldl aggStep s) (l.foldl aggStep t) := by
  induction l generalizing s t with
  | nil => exact h
  | cons r l ih => exact ih (aggStep_congr r h)

/-- Two updates of the per-status map commute, whether they hit the same
bucket or different ones. -/
theorem updateStatusMetrics_comm (m : Nat → Option StatusCodeMetrics)
    (s1 l1 s2 l2 : Nat) :
    updateStatusMetrics (updateStatusMetrics m s1 l1) s2 l2
      = updateStatusMetrics (updateStatusMetrics m s2 l2) s1 l1 := by
  funext c
  by_cases h12 : s1 = s2
  · subst h12
    by_cases hc : c = s1
    · subst hc
      simp only [updateStatusMetrics, if_pos (Eq.refl c), Option.getD_some,
        Option.some.injEq, StatusCodeMetrics.mk.injEq]
      exact ⟨trivial, by split_ifs <;> omega, by split_ifs <;> omega, by omega⟩
    · simp [updateStatusMetrics, hc]
  · by_cases hc1 : c = s1
    · subst hc1
      simp [updateStatusMetrics, h12, Ne.symm h12]
    · by_cases hc2 : c = s2
      · subst hc2
        simp [updateStatusMetrics, hc1, Ne.symm h12]
      · simp [updateStatusMetrics, hc1, hc2]

theorem aggStep_swap (s : AggState) (a b : Result) :
    AggEquiv (aggStep (aggStep s a) b) (aggStep (aggStep s b) a) := by
  cases ha : a.isErr with
  | true =>
    cases hb : b.isErr with
    | true =>
      rw [aggStep_err s a ha, aggStep_err s b hb, aggStep_err _ b hb, aggStep_err _ a ha]
      exact AggEquiv.rfl _
    | false =>
      rw [aggStep_err s a ha, aggStep_ok s b hb, aggStep_ok _ b hb, aggStep_err _ a ha]
      exact AggEquiv.rfl _
  | false =>
    cases hb : b.isErr with
    | true =>
      rw [aggStep_ok s a ha, aggStep_err s b hb, aggStep_err _ b hb, aggStep_ok _ a ha]
      exact AggEquiv.rfl _
    | false =>
      rw [aggStep_ok s a ha, aggStep_ok s b hb, aggStep_ok _ b hb, aggStep_ok _ a ha]
      refine ⟨?_, ?_, ?_, ?_, ?_, ?_⟩
      · dsimp only
        omega
      · dsimp only
        rw [List.append_assoc, List.append_assoc]
        exact List.Perm.append_left s.latencies (List.Perm.swap b.latency a.latency [])
      · dsimp only
        split_ifs <;> omega
      · dsimp only
        split_ifs <;> omega
      · exact updateStatusMetrics_comm s.statusMetrics a.status a.latency b.status b.latency
      · rfl

theorem foldl_aggStep_perm {l1 l2 : List Result} (p : l1.Perm l2) :
    ∀ s : AggState, AggEquiv (l1.foldl aggStep s) (l2.foldl aggStep s) := by
  induction p with
  | nil => exact fun s => AggEquiv.rfl _
  | cons x p ih =>
    intro s
    rw [List.foldl_cons, List.foldl_cons]
    exact ih _
  | swap x y l =>
    intro s
    rw [List.foldl_cons, List.foldl_cons, List.foldl_cons, List.foldl_cons]
    exact foldl_aggStep_congr l (aggStep_swap s y x)
  | trans p1 p2 ih1 ih2 => exact fun s => (ih1 s).trans (ih2 s)

/-- Sorting makes the percentile computation insensitive to the arrival
order of the latency sample. -/
theorem calculatePercentile_perm {l1 l2 : List Nat} (p : l1.Perm l2) (pct : Nat) :
    calculatePercentile l1 pct = calculatePercentile l2 pct := by
  have hlen := p.length_eq
  have hanti : IsAntisymm ℕ (fun a b => a ≤ b) := ⟨fun _ _ h1 h2 => Nat.le_antisymm h1 h2⟩
  have hsort : List.insertionSort (fun a b => a ≤ b) l1
      = List.insertionSort (fun a b => a ≤ b) l2 := by
    apply @List.eq_of_perm_of_sorted ℕ (fun a b => a ≤ b) hanti
    · exact ((List.perm_insertionSort _ l1).trans p).trans
        (List.perm_insertionSort _ l2).symm
    · exact List.sorted_insertionSort _ l1
    · exact List.sorted_insertionSort _ l2
  rw [calculatePercentile, calculatePercentile, hlen, hsort]

theorem buildReport_congr (rps duration errs : Nat) {s t : AggState} (h : AggEquiv s t) :
    buildReport rps duration errs s = buildReport rps duration errs t := by
  obtain ⟨h1, h2, h3, h4, h5, h6⟩ := h
  rw [buildReport, buildReport, h1, h3, h4, h5,
    calculatePercentile_perm h2 50, calculatePercentile_perm h2 90,
    calculatePercentile_perm h2 95, calculatePercentile_perm h2 99]

/-- C7: the final report is invariant under reordering of the Outcome
stream: aggregating any two permutations of the same multiset of Results
(with the same error-counter snapshot, which the workers fixed before the
drain loop runs) builds identical reports — every aggregation operation is
order-independent and the percentile input is sorted first. -/
theorem finalReport_order_invariant (rps duration totalErrors : Nat)
    {rs1 rs2 : List Result} (h : rs1.Perm rs2) :
    buildReport rps duration totalErrors (aggregate rs1)
      = buildReport rps duration totalErrors (aggregate rs2) :=
  buildReport_congr rps duration totalErrors (foldl_aggStep_perm h initAggState)

/-- C7 witness: swapping the arrival order of one success and one failure
leaves the report unchanged. -/
theorem finalReport_order_invariant_witness :
    List.Perm [(⟨0, 200, 5, false⟩ : Result), ⟨1, 0, 9, true⟩]
        [(⟨1, 0, 9, true⟩ : Result), ⟨0, 200, 5, false⟩]
    ∧ buildReport 2 1 1 (aggregate [⟨0, 200, 5, false⟩, ⟨1, 0, 9, true⟩])
      = buildReport 2 1 1 (aggregate [⟨1, 0, 9, true⟩, ⟨0, 200, 5, false⟩]) := by
  have hp : List.Perm [(⟨0, 200, 5, false⟩ : Result), ⟨1, 0, 9, true⟩]
      [(⟨1, 0, 9, true⟩ : Result), ⟨0, 200, 5, false⟩] :=
    List.Perm.swap (⟨1, 0, 9, true⟩ : Result) (⟨0, 200, 5, false⟩ : Result) []
  exact ⟨hp, finalReport_order_invariant 2 1 1 hp⟩

/-- C8: calculatePercentile on an empty latency sample returns a zero
latency for every percentile, without any out-of-bounds access. -/
theorem calculatePercentile_nil (p : Nat) : calculatePercentile [] p = 0 := by
  simp [calculatePercentile]

/-- C1 (code evaluation): at the failing input data = [0, 10] ns,
percentile = 50, the real-valued rank is 0.5, and the code returns 0, the
element at the lower index: the fractional weight 0.5 is truncated to 0 by
the float64-to-time.Duration conversion, so no interpolation happens; the
claimed linear interpolation would give 5. -/
theorem calculatePercentile_no_interpolation :
    calculatePercentile [0, 10] 50 = 0 ∧ (0 : Nat) ≠ 5 := by
  constructor
  · simp [calculatePercentile]
    norm_num
  · decide

/-- C2 (counterexample): rps = 0 and duration = 0 both parse, and the
handler does not reject them with a validation error: it proceeds with the
run. -/
theorem parseLoadTestParams_zero_accepted :
    ¬ ∃ e, parseLoadTestParams (some 0) (some 0) = Except.error e := by
  intro ⟨e, he⟩
  simp [parseLoadTestParams] at he

/-- C2 (amended): the run is rejected with a synchronous validation error
exactly when rate or duration is non-numeric (strconv.Atoi fails); every
parsed integer value, zero and negative values included, is accepted and
the handler proceeds. -/
theorem parseLoadTestParams_spec (rps? duration? : Option Int) (r d : Int) :
    ((∃ e, parseLoadTestParams rps? duration? = Except.error e) ↔
      rps? = none ∨ duration? = none)
    ∧ parseLoadTestParams (some r) (some d) = Except.ok (r, d) := by
  refine ⟨⟨?_, ?_⟩, rfl⟩
  · intro ⟨e, he⟩
    match rps?, duration? with
    | none, _ => exact Or.inl rfl
    | some _, none => exact Or.inr rfl
    | some _, some _ => simp [parseLoadTestParams] at he
  · intro h
    match rps?, duration? with
    | none, _ => exact ⟨"invalid rps", rfl⟩
    | some _, none => exact ⟨"invalid duration", rfl⟩
    | some _, some _ => rcases h with h | h <;> simp at h

/-- C3 (counterexample): an attempt that panics does not emit any Outcome
on the results channel, against the claim that every attempt emits exactly
one. -/
theorem workerRun_panicked_no_outcome :
    ¬ ((workerRun 0 AttemptBehavior.panicked).1.length = 1) := by
  decide

/-- C3 (amended): a successful attempt emits exactly one Outcome and does
not touch the error counter; a failed attempt emits exactly one failure
Outcome and increments the error counter exactly once; a panicking attempt
is recovered locally and increments the error counter exactly once but
emits no Outcome at all. -/
theorem workerRun_spec (id status latency : Nat) :
    (workerRun id (.ok status latency)).1 = [⟨id, status, latency, false⟩]
    ∧ (workerRun id (.ok status latency)).2 = 0
    ∧ (workerRun id (.failed latency)).1 = [⟨id, 0, latency, true⟩]
    ∧ (workerRun id (.failed latency)).2 = 1
    ∧ (workerRun id .panicked).1 = []
    ∧ (workerRun id .panicked).2 = 1 := by
  refine ⟨rfl, rfl, rfl, rfl, rfl, rfl⟩
